import Mathlib

/-!
Shallow embedding of `src/app/main.py` and `src/app/dwh.py` of the
`azure-webapp-container-demo` repository, together with theorems settling
the specification claims C1 through C10.

Conventions:
* Python strings are modelled by `String`; the Python string/path operations
  used by the code (`str.endswith`, `os.path.join`, POSIX resolution of
  `.`/`..`) are given explicit executable definitions below.
* SQL tables are modelled as Lean lists of record rows; the analytics query
  of `run_analytics_query` is embedded stage by stage (one definition per
  CTE), with `RANK()` given its standard semantics and `ORDER BY ... LIMIT`
  modelled by a deterministic sort followed by `take`.
* Numeric SQL values (`total_amount`, `rating`, percentages) are modelled
  by `ℚ`; quantities by `ℕ`.
* Fallible Python control flow is modelled by `Except` or by explicit
  outcome records.
-/

/-! ### Python string and path primitives -/

/-- Model of Python `s.endswith(suffix)`: `suffix` is a suffix of `s`. -/
def pyEndsWith (s suffix : String) : Bool :=
  decide (suffix.data <:+ s.data)

/-- Does the string start with the character `/`? (Used by `os.path.join`.) -/
def startsWithSlash (s : String) : Bool :=
  match s.data with
  | [] => false
  | c :: _ => c == '/'

/-- Does the string end with the character `/`? (Used by `os.path.join`.) -/
def endsWithSlash (s : String) : Bool :=
  match s.data.getLast? with
  | some c => c == '/'
  | none => false

/-- Model of POSIX `os.path.join(a, b)` for two arguments: if `b` is
absolute it replaces `a`; otherwise the parts are joined with a single
separator. No normalization of `.` or `..` is performed. -/
def osPathJoin (a b : String) : String :=
  if startsWithSlash b = true then b
  else if a = "" ∨ endsWithSlash a = true then a ++ b
  else a ++ "/" ++ b

/-- Split a character list on a separator character. -/
def splitOnChar (c : Char) : List Char → List (List Char)
  | [] => [[]]
  | x :: xs =>
      let r := splitOnChar c xs
      if x == c then [] :: r
      else
        match r with
        | [] => [[x]]
        | h :: t => (x :: h) :: t

/-- POSIX resolution of an absolute path: drop empty and `.` components and
let each `..` component cancel the component before it (at the root, `..`
stays at the root). The result is the normalized absolute path the kernel
would actually visit. -/
def resolveAbs (s : String) : String :=
  let parts := (splitOnChar '/' s.data).filter
    (fun p => decide (p ≠ [] ∧ p ≠ ['.']))
  let stack := parts.foldl
    (fun st p => if p = ['.', '.'] then st.dropLast else st ++ [p]) []
  ⟨'/' :: List.intercalate ['/'] stack⟩

/-- Is `p` the directory `base` itself or a path strictly inside it?
(Compared on already-resolved paths.) -/
def pathWithin (base p : String) : Bool :=
  decide (p = base ∨ (base ++ "/").data <+: p.data)

/-! ### `main.py`: the file-reading endpoint -/

/-- The persistent volume mount point, `PERSISTENT_VOLUME_PATH` in `main.py`. -/
def PERSISTENT_VOLUME_PATH : String := "/data"

/-- The path `read_file` accesses for a client-supplied `filename`:
exactly `os.path.join(PERSISTENT_VOLUME_PATH, filename)`, with no
normalization or validation of `filename`. -/
def readPath (filename : String) : String :=
  osPathJoin PERSISTENT_VOLUME_PATH filename

/-- Filesystem state visible to the HTTP endpoints: which paths exist
(`os.path.exists`), which of them can be opened/read/stat-ed without an
OS error, and their content. -/
structure VolumeFS where
  present : List String
  readOk : List String
  content : String → String

/-- Embedding of the `GET /read-file/{filename}` handler: join the raw
filename onto the volume path; missing path raises HTTP 404; a failing
open/read/stat raises HTTP 500; otherwise the content is returned. -/
def read_file (fs : VolumeFS) (filename : String) : Except Nat (String × String) :=
  let path := readPath filename
  if path ∈ fs.present then
    if path ∈ fs.readOk then .ok (filename, fs.content path) else .error 500
  else .error 404

/-- HTTP status code produced by `read_file`. -/
def read_file_status (fs : VolumeFS) (filename : String) : Nat :=
  match read_file fs filename with
  | .ok _ => 200
  | .error s => s

/-! ### `main.py`: the `write_file` naming logic -/

/-- Two-digit zero-padded decimal rendering, as produced by `strftime`
fields `%m %d %H %M %S` for their valid ranges. -/
def pad2 (n : Nat) : String :=
  ⟨[Nat.digitChar (n / 10), Nat.digitChar (n % 10)]⟩

/-- Four-digit zero-padded decimal rendering, as produced by `strftime`
field `%Y` for four-digit years. -/
def pad4 (n : Nat) : String :=
  ⟨[Nat.digitChar (n / 1000), Nat.digitChar (n / 100 % 10),
    Nat.digitChar (n / 10 % 10), Nat.digitChar (n % 10)]⟩

/-- Model of `datetime.now().strftime("%Y%m%d_%H%M%S")` applied to the
clock reading `(y, mo, d, h, mi, s)`. -/
def strftimeYmdHMS (y mo d h mi s : Nat) : String :=
  pad4 y ++ pad2 mo ++ pad2 d ++ "_" ++ pad2 h ++ pad2 mi ++ pad2 s

/-- The `.txt`-suffix enforcement of `write_file`: append `.txt` unless the
name already ends with it. -/
def ensureTxt (f : String) : String :=
  if pyEndsWith f ".txt" = true then f else f ++ ".txt"

/-- The auto-generated filename used when no filename was provided. -/
def autoFilename (ts : String) : String :=
  "hello_world_" ++ ts ++ ".txt"

/-- The name `write_file` stores under, given the request's optional
`filename` field and the formatted timestamp `ts`. Python's
`if not request.filename:` treats both an absent field and an empty string
as "not provided". -/
def storedFilename (provided : Option String) (ts : String) : String :=
  match provided with
  | none => ensureTxt (autoFilename ts)
  | some f => if f = "" then ensureTxt (autoFilename ts) else ensureTxt f

/-- The stored-name pattern claimed for auto-named files:
`hello_world_` followed by an 8-digit date, an underscore, a 6-digit time
(14 digits in total), and `.txt`. -/
def isAutoName (s : String) : Prop :=
  ∃ d8 t6 : String,
    s = "hello_world_" ++ d8 ++ "_" ++ t6 ++ ".txt" ∧
    d8.data.length = 8 ∧ d8.data.all Char.isDigit = true ∧
    t6.data.length = 6 ∧ t6.data.all Char.isDigit = true

/-! ### `dwh.py`: connection lifecycle of `init_dwh` and `execute_query`

`init_dwh` and `execute_query` both run
`load_config(); conn = setup_ducklake(config); ...work...; conn.close()`
inside a `try`/`except` that prints and re-raises, with no `finally`.
The model records, for one call, which steps succeed, whether a
connection was opened (`duckdb.connect()` inside `setup_ducklake`),
whether `close()` was ever called on it, and whether the call exited by
raising. -/

/-- Success/failure of each fallible step of a `dwh.py` entry point, in
source order: `load_config`, `duckdb.connect()`, the `INSTALL`/`ATTACH`/
`USE` statements of `setup_ducklake`, `create_tables_if_not_exist`
(for `init_dwh`), `run_analytics_query` and the `config['display']`
lookup (for `execute_query`). -/
structure DwhSteps where
  loadOk : Bool
  connectOk : Bool
  installOk : Bool
  attachOk : Bool
  useOk : Bool
  tablesOk : Bool
  queryOk : Bool
  displayOk : Bool
deriving DecidableEq, Repr

/-- Observable outcome of one `init_dwh`/`execute_query` call: was a
connection opened, was `close()` called on it, did the call raise. -/
structure DwhExit where
  opened : Bool
  closed : Bool
  raised : Bool
deriving DecidableEq, Repr

/-- Control flow of `init_dwh`: any exception after `duckdb.connect()`
propagates through the bare `except`/`raise` without `conn.close()`
being reached. -/
def init_dwh (f : DwhSteps) : DwhExit :=
  if f.loadOk = false then ⟨false, false, true⟩
  else if f.connectOk = false then ⟨false, false, true⟩
  else if (f.installOk && f.attachOk && f.useOk) = false then ⟨true, false, true⟩
  else if f.tablesOk = false then ⟨true, false, true⟩
  else ⟨true, true, false⟩

/-- Control flow of `execute_query`: identical to `init_dwh` up to
`setup_ducklake`, then `run_analytics_query` and the
`config['display']['results_title']` lookup run before `conn.close()`. -/
def execute_query (f : DwhSteps) : DwhExit :=
  if f.loadOk = false then ⟨false, false, true⟩
  else if f.connectOk = false then ⟨false, false, true⟩
  else if (f.installOk && f.attachOk && f.useOk) = false then ⟨true, false, true⟩
  else if f.queryOk = false then ⟨true, false, true⟩
  else if f.displayOk = false then ⟨true, false, true⟩
  else ⟨true, true, false⟩

/-! ### `dwh.py`: `create_tables_if_not_exist`

The catalog is an association list `table name → table contents` (one
entry per existing table), the filesystem an association list
`path → parquet contents`. `CREATE TABLE IF NOT EXISTS t AS SELECT *
FROM read_parquet(p)` inserts `(t, contents of p)` only when `t` is
absent. The Python code also builds the dict `parquet_files` keyed by
physical table name (later duplicate keys overwrite earlier ones, dict
order preserved) and raises `KeyError` when a `parquet_files.files` key
has no entry in `config['tables']`. -/

/-- The `[tables]`/`[parquet_files]` sections of `config.toml` that
`create_tables_if_not_exist` reads. Both mappings are kept in dict
(insertion) order. -/
structure BootConfig where
  tables : List (String × String)
  base_path : String
  files : List (String × String)
deriving DecidableEq, Repr

/-- Python dict insertion: overwrite in place if the key exists, else
append. -/
def dictInsert (l : List (String × String)) (k v : String) : List (String × String) :=
  if l.any (fun p => p.1 = k) then
    l.map (fun p => if p.1 = k then (k, v) else p)
  else l ++ [(k, v)]

/-- The `for table_key, filename in config['parquet_files']['files'].items()`
loop that fills the `parquet_files` dict: look up
`config['tables'][table_key]` (raising `KeyError` when absent) and map the
physical table name to `os.path.join(base_path, filename)`. -/
def buildPairsAux (cfg : BootConfig) :
    List (String × String) → List (String × String) →
    Except String (List (String × String))
  | [], acc => .ok acc
  | kv :: rest, acc =>
      match cfg.tables.find? (fun p => p.1 = kv.1) with
      | none => .error kv.1
      | some tv =>
          buildPairsAux cfg rest (dictInsert acc tv.2 (osPathJoin cfg.base_path kv.2))

/-- The completed `parquet_files` dict of `create_tables_if_not_exist`,
keyed by physical table name. -/
def buildPairs (cfg : BootConfig) : Except String (List (String × String)) :=
  buildPairsAux cfg cfg.files []

/-- Does a parquet file exist at `p`? (`os.path.exists`). -/
def fsHas (fs : List (String × String)) (p : String) : Bool :=
  fs.any (fun e => e.1 = p)

/-- Contents read by `read_parquet(p)` (only used when `fsHas fs p`). -/
def fsRead (fs : List (String × String)) (p : String) : String :=
  ((fs.find? (fun e => e.1 = p)).map (fun e => e.2)).getD ""

/-- Does the catalog contain a table named `t`? -/
def catalogHas (cat : List (String × String)) (t : String) : Bool :=
  cat.any (fun e => e.1 = t)

/-- Effect of `CREATE TABLE IF NOT EXISTS t AS SELECT * FROM
read_parquet(p)`: a no-op when `t` exists, otherwise the table is created
with the file's current contents. -/
def createIfNotExists (cat : List (String × String)) (t c : String) :
    List (String × String) :=
  if catalogHas cat t = true then cat else cat ++ [(t, c)]

/-- Result of one bootstrap run: the catalog afterwards, the tables for
which a `CREATE TABLE` statement was executed, and the paths for which the
missing-file warning was printed. -/
structure BootResult where
  catalog : List (String × String)
  creations : List String
  warnings : List String
deriving DecidableEq, Repr

/-- The `for table_name, parquet_path in parquet_files.items()` loop:
file present ⇒ execute the `CREATE TABLE IF NOT EXISTS`; file absent ⇒
print a warning and continue with the remaining pairs. -/
def processPairs (fs : List (String × String)) :
    List (String × String) → List (String × String) → BootResult
  | [], cat => ⟨cat, [], []⟩
  | (t, p) :: rest, cat =>
      if fsHas fs p = true then
        let r := processPairs fs rest (createIfNotExists cat t (fsRead fs p))
        ⟨r.catalog, t :: r.creations, r.warnings⟩
      else
        let r := processPairs fs rest cat
        ⟨r.catalog, r.creations, p :: r.warnings⟩

/-- The count returned by `SELECT COUNT(*) FROM information_schema.tables
WHERE table_name IN (...)`: how many catalog tables bear one of the
expected physical names. -/
def existCount (cat : List (String × String)) (names : List String) : Nat :=
  cat.countP (fun e => decide (e.1 ∈ names))

/-- Embedding of `create_tables_if_not_exist`: when the existence count is
below the number of configured tables, build the `(table, path)` pairs and
process them; otherwise do nothing. A `KeyError` while building the pairs
propagates as `.error`. -/
def create_tables_if_not_exist (cfg : BootConfig)
    (fs cat : List (String × String)) : Except String BootResult :=
  if existCount cat (cfg.tables.map (fun p => p.2)) < cfg.tables.length then
    (buildPairs cfg).map (fun pairs => processPairs fs pairs cat)
  else .ok ⟨cat, [], []⟩

/-! ### `dwh.py`: the analytics query of `run_analytics_query`

The five DuckLake tables are modelled as lists of rows; each CTE of the
query becomes one definition. `total_amount` and `rating` are rationals,
quantities naturals. -/

/-- A row of the orders table. -/
structure OrderR where
  order_id : Nat
  customer_id : Nat
  shipping_country : String
  total_amount : ℚ
deriving DecidableEq, Repr

/-- A row of the order-items table. -/
structure OrderItemR where
  order_id : Nat
  product_id : Nat
  quantity : Nat
deriving DecidableEq, Repr

/-- A row of the products table. -/
structure ProductR where
  product_id : Nat
  product_name : String
deriving DecidableEq, Repr

/-- A row of the product-reviews table. -/
structure ReviewR where
  product_id : Nat
  rating : ℚ
deriving DecidableEq, Repr

/-- A row of the customers table. -/
structure CustomerR where
  customer_id : Nat
  gender : String
deriving DecidableEq, Repr

/-- The five DuckLake tables the query reads. -/
structure DB where
  orders : List OrderR
  order_items : List OrderItemR
  products : List ProductR
  product_reviews : List ReviewR
  customers : List CustomerR
deriving Repr

/-- The join `orders o JOIN order_items oi ON o.order_id = oi.order_id
JOIN products p ON oi.product_id = p.product_id`. -/
def salesJoin (db : DB) : List (OrderR × OrderItemR × ProductR) :=
  ((db.orders.flatMap fun o => db.order_items.flatMap fun oi =>
      db.products.map fun p => (o, oi, p))).filter
    fun r => decide (r.1.order_id = r.2.1.order_id ∧
      r.2.1.product_id = r.2.2.product_id)

/-- Grouping key of the `product_sales` CTE:
`GROUP BY country, oi.product_id, p.product_name`. -/
structure SalesKey where
  country : String
  product_id : Nat
  product_name : String
deriving DecidableEq, Repr

/-- Key of one `salesJoin` row. -/
def keyOfJoin (r : OrderR × OrderItemR × ProductR) : SalesKey :=
  ⟨r.1.shipping_country, r.2.1.product_id, r.2.2.product_name⟩

/-- The `salesJoin` rows falling into the group `k`. -/
def salesGroup (db : DB) (k : SalesKey) : List (OrderR × OrderItemR × ProductR) :=
  (salesJoin db).filter fun r => decide (keyOfJoin r = k)

/-- A row of the `product_sales` CTE. -/
structure SalesRow where
  country : String
  product_id : Nat
  product_name : String
  total_sales : ℚ
  total_quantity : Nat
deriving DecidableEq, Repr

/-- The aggregated `product_sales` row of group `k`:
`SUM(o.total_amount)` and `SUM(oi.quantity)` over the group. -/
def salesRowOf (db : DB) (k : SalesKey) : SalesRow :=
  ⟨k.country, k.product_id, k.product_name,
    ((salesGroup db k).map fun r => r.1.total_amount).sum,
    ((salesGroup db k).map fun r => r.2.1.quantity).sum⟩

/-- The `product_sales` CTE: one row per group key, in first-occurrence
order. -/
def product_sales (db : DB) : List SalesRow :=
  (((salesJoin db).map keyOfJoin).dedup).map (salesRowOf db)

/-- The reviews of one product. -/
def ratingGroup (db : DB) (pid : Nat) : List ReviewR :=
  db.product_reviews.filter fun rv => decide (rv.product_id = pid)

/-- `AVG(rating)` over one product's reviews. -/
def avgRatingOf (db : DB) (pid : Nat) : ℚ :=
  ((ratingGroup db pid).map fun rv => rv.rating).sum / ((ratingGroup db pid).length : ℚ)

/-- The product ids appearing in the `product_ratings` CTE. -/
def ratingKeys (db : DB) : List Nat :=
  (db.product_reviews.map fun rv => rv.product_id).dedup

/-- The `LEFT JOIN product_ratings pr ON ps.product_id = pr.product_id`
value: `AVG(rating)` when the product has reviews, SQL `NULL` otherwise. -/
def ratingFor (db : DB) (pid : Nat) : Option ℚ :=
  if pid ∈ ratingKeys db then some (avgRatingOf db pid) else none

/-- The join `orders o JOIN order_items oi ON o.order_id = oi.order_id
JOIN customers c ON o.customer_id = c.customer_id` feeding the
`product_customers` CTE. -/
def custJoin (db : DB) : List (OrderR × OrderItemR × CustomerR) :=
  ((db.orders.flatMap fun o => db.order_items.flatMap fun oi =>
      db.customers.map fun c => (o, oi, c))).filter
    fun r => decide (r.1.order_id = r.2.1.order_id ∧
      r.1.customer_id = r.2.2.customer_id)

/-- The `custJoin` rows of one product (`GROUP BY oi.product_id`). -/
def custGroup (db : DB) (pid : Nat) : List (OrderR × OrderItemR × CustomerR) :=
  (custJoin db).filter fun r => decide (r.2.1.product_id = pid)

/-- `COUNT(DISTINCT o.customer_id)` over one product's group. -/
def customer_count (db : DB) (pid : Nat) : Nat :=
  (((custGroup db pid).map fun r => r.1.customer_id).dedup).length

/-- `SUM(CASE WHEN c.gender = g THEN 1 ELSE 0 END)` over one product's
group: this counts *join rows*, not distinct customers. -/
def genderRows (db : DB) (pid : Nat) (g : String) : Nat :=
  ((custGroup db pid).filter fun r => decide (r.2.2.gender = g)).length

/-- `male_percent` of the `product_customers` CTE. -/
def male_percent (db : DB) (pid : Nat) : ℚ :=
  100 * (genderRows db pid "Male" : ℚ) / (customer_count db pid : ℚ)

/-- `female_percent` of the `product_customers` CTE. -/
def female_percent (db : DB) (pid : Nat) : ℚ :=
  100 * (genderRows db pid "Female" : ℚ) / (customer_count db pid : ℚ)

/-- The product ids appearing in the `product_customers` CTE. -/
def custKeys (db : DB) : List Nat :=
  ((custJoin db).map fun r => r.2.1.product_id).dedup

/-- The `LEFT JOIN product_customers pc ON ps.product_id = pc.product_id`
values: `(customer_count, male_percent, female_percent)` when the product
has customer rows, SQL `NULL`s otherwise. -/
def pcFor (db : DB) (pid : Nat) : Option (Nat × ℚ × ℚ) :=
  if pid ∈ custKeys db then
    some (customer_count db pid, male_percent db pid, female_percent db pid)
  else none

/-- `RANK() OVER (PARTITION BY ps.country ORDER BY ps.total_sales DESC)`:
one plus the number of rows of the same country with strictly greater
total sales. -/
def rankOf (db : DB) (s : SalesRow) : Nat :=
  1 + ((product_sales db).filter fun s2 =>
    decide (s2.country = s.country ∧ s.total_sales < s2.total_sales)).length

/-- A row of the `ranked_sales` CTE. -/
structure RankedRow where
  country : String
  product_id : Nat
  product_name : String
  total_sales : ℚ
  total_quantity : Nat
  avg_rating : Option ℚ
  customer_count : Option Nat
  male_percent : Option ℚ
  female_percent : Option ℚ
  rank : Nat
deriving DecidableEq, Repr

/-- The `ranked_sales` row built from one `product_sales` row. Both left
joins have at most one matching right row (their right sides are grouped
by `product_id`), so `ranked_sales` has exactly one row per
`product_sales` row. -/
def rankedOf (db : DB) (s : SalesRow) : RankedRow :=
  ⟨s.country, s.product_id, s.product_name, s.total_sales, s.total_quantity,
    ratingFor db s.product_id,
    (pcFor db s.product_id).map fun v => v.1,
    (pcFor db s.product_id).map fun v => v.2.1,
    (pcFor db s.product_id).map fun v => v.2.2,
    rankOf db s⟩

/-- The `ranked_sales` CTE. -/
def ranked_sales (db : DB) : List RankedRow :=
  (product_sales db).map (rankedOf db)

/-- The distinct countries of `product_sales` (the `GROUP BY country` of
the `top_countries` CTE), in first-occurrence order. -/
def countriesOf (db : DB) : List String :=
  ((product_sales db).map fun s => s.country).dedup

/-- `MAX(total_sales)` of one country's `product_sales` rows (`⊥` for a
country with no rows). -/
def maxSalesIn (db : DB) (c : String) : WithBot ℚ :=
  (((product_sales db).filter fun s => decide (s.country = c)).map
    fun s => s.total_sales).maximum

/-- The `ORDER BY max_sales DESC` comparison of the `top_countries` CTE. -/
def countryOrder (db : DB) (c₁ c₂ : String) : Prop :=
  maxSalesIn db c₂ ≤ maxSalesIn db c₁

instance (db : DB) : DecidableRel (countryOrder db) := fun c₁ c₂ =>
  inferInstanceAs (Decidable (maxSalesIn db c₂ ≤ maxSalesIn db c₁))

instance (db : DB) : IsTotal String (countryOrder db) :=
  ⟨fun a b => le_total (maxSalesIn db b) (maxSalesIn db a)⟩

instance (db : DB) : IsTrans String (countryOrder db) :=
  ⟨fun _ _ _ h₁ h₂ => le_trans h₂ h₁⟩

/-- The `top_countries` CTE: countries sorted by their best product's
sales descending, cut to the configured limit
(`ORDER BY max_sales DESC LIMIT top_countries_limit`). -/
def top_countries (db : DB) (N : Nat) : List String :=
  (List.insertionSort (countryOrder db) (countriesOf db)).take N

/-- A row of the final `SELECT` (the analytics result). -/
structure ResultRow where
  country : String
  product_name : String
  total_sales : ℚ
  total_quantity : Nat
  avg_rating : Option ℚ
  customer_count : Option Nat
  male_percent : Option ℚ
  female_percent : Option ℚ
deriving DecidableEq, Repr

/-- The final projection of one `ranked_sales` row. -/
def projectRow (r : RankedRow) : ResultRow :=
  ⟨r.country, r.product_name, r.total_sales, r.total_quantity,
    r.avg_rating, r.customer_count, r.male_percent, r.female_percent⟩

/-- The final `ORDER BY rs.total_sales DESC` comparison. -/
def resultOrder (a b : RankedRow) : Prop :=
  b.total_sales ≤ a.total_sales

instance : DecidableRel resultOrder := fun a b =>
  inferInstanceAs (Decidable (b.total_sales ≤ a.total_sales))

instance : IsTotal RankedRow resultOrder :=
  ⟨fun a b => le_total b.total_sales a.total_sales⟩

instance : IsTrans RankedRow resultOrder :=
  ⟨fun _ _ _ h₁ h₂ => le_trans h₂ h₁⟩

/-- Embedding of the full query of `run_analytics_query`: keep the
`ranked_sales` rows with `rank = 1` whose country is in `top_countries`
(the countries of `top_countries` are distinct, so the `JOIN` is a
filter), order by total sales descending, and project. -/
def run_analytics_query (db : DB) (N : Nat) : List ResultRow :=
  ((List.insertionSort resultOrder
      ((ranked_sales db).filter fun r =>
        decide (r.rank = 1 ∧ r.country ∈ top_countries db N))).map projectRow)

/-- The result row produced for a maximal `product_sales` row. -/
def projectOf (db : DB) (s : SalesRow) : ResultRow :=
  projectRow (rankedOf db s)

/-! ### Claim C1: connection release on every exit path -/

/-- A `DwhSteps` assignment where everything succeeds except
`create_tables_if_not_exist`. -/
def stepsTablesFail : DwhSteps :=
  ⟨true, true, true, true, true, false, true, true⟩

/-- Claim C1, counterexample: when `create_tables_if_not_exist` raises
inside `init_dwh`, a connection has been opened by `setup_ducklake` but
`close()` is never called before the exception propagates, so the session
is not released on every exit path. -/
theorem C1_counterexample :
    (init_dwh stepsTablesFail).opened = true ∧
    (init_dwh stepsTablesFail).closed = false ∧
    (init_dwh stepsTablesFail).raised = true := by
  decide

/-- Claim C1 (amended): in both `init_dwh` and `execute_query` the
connection is closed exactly on the fully successful path — `close()` runs
if and only if a connection was opened and the call returns normally; on
any failure after `duckdb.connect()` the exception propagates with the
connection still open. -/
theorem C1_close_only_on_success (f : DwhSteps) :
    ((init_dwh f).closed = ((init_dwh f).opened && !(init_dwh f).raised)) ∧
    ((execute_query f).closed = ((execute_query f).opened && !(execute_query f).raised)) := by
  obtain ⟨a, b, c, d, e, t, q, dp⟩ := f
  cases a <;> cases b <;> cases c <;> cases d <;> cases e <;>
    cases t <;> cases q <;> cases dp <;> decide

/-! ### Claim C10: raw path join in `read_file` -/

/-- Does the filename contain a `..` path component? -/
def hasTraversal (fn : String) : Bool :=
  (splitOnChar '/' fn.data).any (fun p => decide (p = ['.', '.']))

/-- Claim C10: `read_file` accesses exactly
`os.path.join(PERSISTENT_VOLUME_PATH, filename)` with the raw
client-supplied filename, and for the traversal filename `..` the accessed
path resolves to `/`, outside the persistent volume directory. -/
theorem C10_raw_join_traversal :
    (∀ fn, readPath fn = osPathJoin PERSISTENT_VOLUME_PATH fn) ∧
    hasTraversal ".." = true ∧
    readPath ".." = "/data/.." ∧
    resolveAbs (readPath "..") = "/" ∧
    pathWithin PERSISTENT_VOLUME_PATH (resolveAbs (readPath "..")) = false :=
  ⟨fun _ => rfl, by decide, by decide, by decide, by decide⟩

/-! ### Claim C8: 404 for missing files, 500 only for other errors -/

/-- Claim C8: if the joined path does not exist the endpoint answers 404
(never 500), and a 500 answer only arises for a path that does exist but
fails to be read — i.e. for errors other than a missing file. -/
theorem C8_not_found_vs_error (fs : VolumeFS) (fn : String) :
    (readPath fn ∉ fs.present → read_file_status fs fn = 404) ∧
    (read_file_status fs fn = 500 →
      readPath fn ∈ fs.present ∧ readPath fn ∉ fs.readOk) := by
  constructor
  · intro h
    simp [read_file_status, read_file, h]
  · intro h
    by_cases hp : readPath fn ∈ fs.present
    · refine ⟨hp, fun hr => ?_⟩
      simp [read_file_status, read_file, hp, hr] at h
    · simp [read_file_status, read_file, hp] at h

/-- A volume with a single readable file. -/
def exFS : VolumeFS :=
  ⟨["/data/a.txt"], ["/data/a.txt"], fun _ => "hello"⟩

/-- Witness for C8: a concrete missing filename answers 404. -/
theorem C8_witness : read_file_status exFS "missing.txt" = 404 :=
  (C8_not_found_vs_error exFS "missing.txt").1 (by decide)

/-! ### Claim C5: no creation calls when every table exists -/

/-- Claim C5: when the `information_schema` count of existing expected
tables equals the number of configured tables,
`create_tables_if_not_exist` executes no `CREATE TABLE` statement (and
changes nothing). -/
theorem C5_no_creation_when_all_exist (cfg : BootConfig)
    (fs cat : List (String × String))
    (h : existCount cat (cfg.tables.map (fun p => p.2)) = cfg.tables.length) :
    create_tables_if_not_exist cfg fs cat = .ok ⟨cat, [], []⟩ := by
  simp [create_tables_if_not_exist, h]

/-- A configuration with two logical tables. -/
def exCfg : BootConfig :=
  ⟨[("orders", "orders_t"), ("customers", "customers_t")], "/base",
    [("orders", "o.parquet"), ("customers", "c.parquet")]⟩

/-- A catalog in which both expected tables already exist. -/
def exCatFull : List (String × String) :=
  [("orders_t", "odata"), ("customers_t", "cdata")]

/-- Witness for C5: with both tables present, the bootstrap is a no-op
with zero creation calls. -/
theorem C5_witness :
    create_tables_if_not_exist exCfg [] exCatFull = .ok ⟨exCatFull, [], []⟩ :=
  C5_no_creation_when_all_exist exCfg [] exCatFull (by decide)

/-! ### Claim C9: stored filename shapes of `write_file` -/

/-- A string always ends with a suffix that was just appended to it. -/
theorem pyEndsWith_append (s t : String) : pyEndsWith (s ++ t) t = true := by
  simp [pyEndsWith]

/-- `Nat.digitChar` of a value below ten is a decimal digit character. -/
theorem digitChar_isDigit {n : Nat} (h : n < 10) :
    (Nat.digitChar n).isDigit = true := by
  interval_cases n <;> decide

/-- Both characters of `pad2 n` are digits when `n < 100`. -/
theorem pad2_digits {n : Nat} (h : n < 100) :
    (pad2 n).data.all Char.isDigit = true := by
  have h1 : n / 10 < 10 := by omega
  have h2 : n % 10 < 10 := by omega
  simp [pad2, digitChar_isDigit h1, digitChar_isDigit h2]

/-- All four characters of `pad4 n` are digits when `n < 10000`. -/
theorem pad4_digits {n : Nat} (h : n < 10000) :
    (pad4 n).data.all Char.isDigit = true := by
  have h1 : n / 1000 < 10 := by omega
  have h2 : n / 100 % 10 < 10 := by omega
  have h3 : n / 10 % 10 < 10 := by omega
  have h4 : n % 10 < 10 := by omega
  simp [pad4, digitChar_isDigit h1, digitChar_isDigit h2,
    digitChar_isDigit h3, digitChar_isDigit h4]

/-- Claim C9, counterexample: the empty string is a provided filename that
does not end in `.txt`, yet the stored name is not `"" ++ ".txt"`
(Python's falsy check regenerates an auto name instead). -/
theorem C9_counterexample :
    pyEndsWith "" ".txt" = false ∧
    storedFilename (some "") "20250101_000000" ≠ "" ++ ".txt" := by
  constructor <;> decide

/-- Claim C9 (amended): a request without a filename — or with the empty
string, which Python's falsy test treats the same way — stores under
`hello_world_<8 digits>_<6 digits>.txt` (14 timestamp digits in all);
a *nonempty* provided filename not ending in `.txt` stores under the
filename with `.txt` appended. -/
theorem C9_stored_filename (y mo d h mi s : Nat) (f ts : String)
    (hy1 : 999 < y) (hy2 : y < 10000) (hmo : mo < 100) (hd : d < 100)
    (hh : h < 100) (hmi : mi < 100) (hs : s < 100)
    (hf : f ≠ "") (hft : pyEndsWith f ".txt" = false) :
    isAutoName (storedFilename none (strftimeYmdHMS y mo d h mi s)) ∧
    isAutoName (storedFilename (some "") (strftimeYmdHMS y mo d h mi s)) ∧
    storedFilename (some f) ts = f ++ ".txt" := by
  have hauto : ∀ t : String, storedFilename none t = autoFilename t := by
    intro t
    simp [storedFilename, ensureTxt, autoFilename, pyEndsWith_append]
  have hauto2 : ∀ t : String, storedFilename (some "") t = autoFilename t := by
    intro t
    simp [storedFilename, ensureTxt, autoFilename, pyEndsWith_append]
  have hpat : isAutoName (autoFilename (strftimeYmdHMS y mo d h mi s)) := by
    refine ⟨pad4 y ++ pad2 mo ++ pad2 d, pad2 h ++ pad2 mi ++ pad2 s, ?_, ?_, ?_, ?_, ?_⟩
    · apply String.ext
      simp [autoFilename, strftimeYmdHMS, pad4, pad2]
    · simp [pad4, pad2]
    · simp only [String.data_append, List.all_append]
      rw [pad4_digits hy2, pad2_digits hmo, pad2_digits hd]
      rfl
    · simp [pad2]
    · simp only [String.data_append, List.all_append]
      rw [pad2_digits hh, pad2_digits hmi, pad2_digits hs]
      rfl
  refine ⟨hauto _ ▸ hpat, hauto2 _ ▸ hpat, ?_⟩
  simp [storedFilename, ensureTxt, hf, hft]

/-- Witness for C9: the amended statement at the concrete clock reading
2025-01-02 03:04:05 and the concrete filename `report`. -/
theorem C9_witness :
    isAutoName (storedFilename none (strftimeYmdHMS 2025 1 2 3 4 5)) ∧
    isAutoName (storedFilename (some "") (strftimeYmdHMS 2025 1 2 3 4 5)) ∧
    storedFilename (some "report") "ts" = "report" ++ ".txt" :=
  C9_stored_filename 2025 1 2 3 4 5 "report" "ts"
    (by decide) (by decide) (by decide) (by decide) (by decide) (by decide)
    (by decide) (by decide) (by decide)

/-! ### Claims C6 and C7: helper lemmas about the bootstrap loop -/

/-- The keys (physical table names) of an association list. -/
def keysOf (l : List (String × String)) : List String :=
  l.map Prod.fst

/-- A table just passed to `CREATE TABLE IF NOT EXISTS` exists afterwards. -/
theorem createIfNotExists_has_self (cat : List (String × String)) (t c : String) :
    catalogHas (createIfNotExists cat t c) t = true := by
  by_cases h : catalogHas cat t = true
  · simp [createIfNotExists, h]
  · simp only [createIfNotExists, h, if_neg, Bool.false_eq_true, not_false_eq_true,
      if_false]
    simp [catalogHas, List.any_append]

/-- `CREATE TABLE IF NOT EXISTS` never removes a table. -/
theorem createIfNotExists_mono {cat : List (String × String)} {t' : String}
    (t c : String) (h : catalogHas cat t' = true) :
    catalogHas (createIfNotExists cat t c) t' = true := by
  by_cases hc : catalogHas cat t = true
  · simpa [createIfNotExists, hc] using h
  · simp only [createIfNotExists, hc, if_neg, Bool.false_eq_true, not_false_eq_true,
      if_false]
    simp only [catalogHas, List.any_append, Bool.or_eq_true]
    exact Or.inl h

/-- `CREATE TABLE IF NOT EXISTS` does not affect the existence of other
table names. -/
theorem createIfNotExists_other {t t' : String} (cat : List (String × String))
    (c : String) (hne : t' ≠ t) :
    catalogHas (createIfNotExists cat t c) t' = catalogHas cat t' := by
  by_cases hc : catalogHas cat t = true
  · simp [createIfNotExists, hc]
  · rw [createIfNotExists, if_neg hc]
    simp [catalogHas, List.any_append, Ne.symm hne]

/-- `CREATE TABLE IF NOT EXISTS` on an existing table is a no-op. -/
theorem createIfNotExists_of_has {cat : List (String × String)} {t : String}
    (c : String) (h : catalogHas cat t = true) :
    createIfNotExists cat t c = cat := by
  simp [createIfNotExists, h]

/-- The bootstrap loop only appends to the catalog. -/
theorem processPairs_catalog_append (fs : List (String × String)) :
    ∀ (pairs cat : List (String × String)),
      ∃ ext, (processPairs fs pairs cat).catalog = cat ++ ext
  | [], cat => ⟨[], by simp [processPairs]⟩
  | (t, p) :: rest, cat => by
      by_cases hf : fsHas fs p = true
      · obtain ⟨ext, hext⟩ :=
          processPairs_catalog_append fs rest (createIfNotExists cat t (fsRead fs p))
        by_cases hc : catalogHas cat t = true
        · refine ⟨ext, ?_⟩
          simp only [processPairs, hf, if_true]
          rw [hext, createIfNotExists_of_has _ hc]
        · refine ⟨(t, fsRead fs p) :: ext, ?_⟩
          simp only [processPairs, hf, if_true]
          rw [hext, createIfNotExists, if_neg hc]
          simp
      · obtain ⟨ext, hext⟩ := processPairs_catalog_append fs rest cat
        exact ⟨ext, by simp [processPairs, hf, hext]⟩

/-- Tables existing before the bootstrap loop still exist afterwards. -/
theorem processPairs_catalog_mono (fs : List (String × String)) :
    ∀ (pairs cat : List (String × String)) (t : String),
      catalogHas cat t = true →
      catalogHas (processPairs fs pairs cat).catalog t = true := by
  intro pairs cat t h
  obtain ⟨ext, hext⟩ := processPairs_catalog_append fs pairs cat
  rw [hext]
  simp only [catalogHas, List.any_append, Bool.or_eq_true]
  exact Or.inl h

/-- After the bootstrap loop, every pair whose parquet file exists has its
table in the catalog. -/
theorem processPairs_has_of_file (fs : List (String × String)) :
    ∀ (pairs cat : List (String × String)) (t p : String),
      (t, p) ∈ pairs → fsHas fs p = true →
      catalogHas (processPairs fs pairs cat).catalog t = true := by
  intro pairs
  induction pairs with
  | nil => intro cat t p hmem; cases hmem
  | cons hd rest ih =>
      intro cat t p hmem hf
      obtain ⟨t', p'⟩ := hd
      rcases List.mem_cons.mp hmem with heq | hrest
      · obtain ⟨ht, hp⟩ := Prod.mk.injEq .. ▸ heq
        subst ht; subst hp
        simp only [processPairs, hf, if_true]
        exact processPairs_catalog_mono fs rest _ t (createIfNotExists_has_self cat t _)
      · by_cases hf' : fsHas fs p' = true
        · simp only [processPairs, hf', if_true]
          exact ih _ t p hrest hf
        · simp only [processPairs, hf', Bool.false_eq_true, if_false]
          exact ih _ t p hrest hf

/-- If every pair with an existing parquet file already has its table in
the catalog, the bootstrap loop leaves the catalog unchanged. -/
theorem processPairs_fixed (fs : List (String × String)) :
    ∀ (pairs cat : List (String × String)),
      (∀ tp ∈ pairs, fsHas fs tp.2 = true → catalogHas cat tp.1 = true) →
      (processPairs fs pairs cat).catalog = cat := by
  intro pairs
  induction pairs with
  | nil => intro cat _; rfl
  | cons hd rest ih =>
      intro cat hall
      obtain ⟨t, p⟩ := hd
      by_cases hf : fsHas fs p = true
      · have hc : catalogHas cat t = true := hall (t, p) (List.mem_cons_self _ _) hf
        simp only [processPairs, hf, if_true, createIfNotExists_of_has _ hc]
        exact ih cat (fun tp htp => hall tp (List.mem_cons_of_mem _ htp))
      · simp only [processPairs, hf, Bool.false_eq_true, if_false]
        exact ih cat (fun tp htp => hall tp (List.mem_cons_of_mem _ htp))

/-- Existing tables keep their exact catalog entry (name and contents)
across the bootstrap loop. -/
theorem processPairs_find_preserved (fs : List (String × String))
    (pairs cat : List (String × String)) (t : String)
    (h : catalogHas cat t = true) :
    (processPairs fs pairs cat).catalog.find? (fun e => e.1 = t) =
      cat.find? (fun e => e.1 = t) := by
  obtain ⟨ext, hext⟩ := processPairs_catalog_append fs pairs cat
  rw [hext, List.find?_append]
  have hsome : (cat.find? (fun e => decide (e.1 = t))).isSome := by
    rw [List.find?_isSome]
    simpa [catalogHas] using h
  obtain ⟨x, hx⟩ := Option.isSome_iff_exists.mp hsome
  rw [hx, Option.or_some]

/-- Python dict insertion keeps the key list duplicate-free. -/
theorem dictInsert_keys_nodup {l : List (String × String)} (k v : String)
    (h : (keysOf l).Nodup) : (keysOf (dictInsert l k v)).Nodup := by
  by_cases hk : l.any (fun p => p.1 = k) = true
  · have : keysOf (l.map (fun p => if p.1 = k then (k, v) else p)) = keysOf l := by
      simp only [keysOf, List.map_map]
      apply List.map_congr_left
      intro p _
      by_cases hp : p.1 = k
      · simp [hp]
      · simp [hp]
    simpa [dictInsert, hk, this] using h
  · have hnot : k ∉ keysOf l := by
      intro hmem
      obtain ⟨p, hp, hpk⟩ := List.mem_map.mp hmem
      exact absurd (List.any_eq_true.mpr ⟨p, hp, by simp [hpk]⟩) hk
    simp only [dictInsert, hk, Bool.false_eq_true, if_false]
    simp only [keysOf, List.map_append, List.map_cons, List.map_nil]
    rw [List.nodup_append]
    refine ⟨by simpa [keysOf] using h, List.nodup_singleton _, ?_⟩
    intro a ha hb
    rw [List.mem_singleton] at hb
    subst hb
    exact hnot (by simpa [keysOf] using ha)

/-- The pairs produced by the dict-building loop have duplicate-free
table names. -/
theorem buildPairsAux_keys_nodup (cfg : BootConfig) :
    ∀ (files acc pairs : List (String × String)),
      (keysOf acc).Nodup → buildPairsAux cfg files acc = .ok pairs →
      (keysOf pairs).Nodup := by
  intro files
  induction files with
  | nil =>
      intro acc pairs hacc h
      simp only [buildPairsAux, Except.ok.injEq] at h
      exact h ▸ hacc
  | cons kv rest ih =>
      intro acc pairs hacc h
      simp only [buildPairsAux] at h
      cases hfind : cfg.tables.find? (fun p => p.1 = kv.1) with
      | none => rw [hfind] at h; cases h
      | some tv =>
          rw [hfind] at h
          exact ih _ pairs (dictInsert_keys_nodup _ _ hacc) h

/-- The table names of `buildPairs` output are duplicate-free. -/
theorem buildPairs_keys_nodup {cfg : BootConfig} {pairs : List (String × String)}
    (h : buildPairs cfg = .ok pairs) : (keysOf pairs).Nodup :=
  buildPairsAux_keys_nodup cfg cfg.files [] pairs List.nodup_nil h

/-- A table name outside the processed pairs is never created. -/
theorem processPairs_no_new (fs : List (String × String)) :
    ∀ (pairs cat : List (String × String)) (t : String),
      t ∉ keysOf pairs → catalogHas cat t = false →
      catalogHas (processPairs fs pairs cat).catalog t = false := by
  intro pairs
  induction pairs with
  | nil => intro cat t _ hcat; exact hcat
  | cons hd rest ih =>
      intro cat t hkeys hcat
      obtain ⟨t', p'⟩ := hd
      have hne : t ≠ t' := by
        intro he
        exact hkeys (by simp [keysOf, he])
      have hrest : t ∉ keysOf rest := fun hm => hkeys (by simp [keysOf] at hm ⊢; right; exact hm)
      by_cases hf : fsHas fs p' = true
      · simp only [processPairs, hf, if_true]
        exact ih _ t hrest (by rw [createIfNotExists_other _ _ hne]; exact hcat)
      · simp only [processPairs, hf, Bool.false_eq_true, if_false]
        exact ih _ t hrest hcat

/-- A pair whose parquet file is missing does not get its table created
(given the duplicate-free table names that `buildPairs` guarantees). -/
theorem processPairs_not_created (fs : List (String × String)) :
    ∀ (pairs cat : List (String × String)) (t p : String),
      (keysOf pairs).Nodup → (t, p) ∈ pairs → fsHas fs p = false →
      catalogHas cat t = false →
      catalogHas (processPairs fs pairs cat).catalog t = false := by
  intro pairs
  induction pairs with
  | nil => intro cat t p _ hmem; cases hmem
  | cons hd rest ih =>
      intro cat t p hnodup hmem hfp hcat
      obtain ⟨t', p'⟩ := hd
      have hnodup' : (keysOf rest).Nodup := (List.nodup_cons.mp hnodup).2
      have hhd : t' ∉ keysOf rest := (List.nodup_cons.mp hnodup).1
      rcases List.mem_cons.mp hmem with heq | hrest
      · obtain ⟨ht, hp⟩ := Prod.mk.injEq .. ▸ heq
        subst ht; subst hp
        simp only [processPairs, hfp, Bool.false_eq_true, if_false]
        exact processPairs_no_new fs rest cat t hhd hcat
      · have htmem : t ∈ keysOf rest := by
          simp only [keysOf, List.mem_map]
          exact ⟨(t, p), hrest, rfl⟩
        have hne : t ≠ t' := fun he => hhd (he ▸ htmem)
        by_cases hf : fsHas fs p' = true
        · simp only [processPairs, hf, if_true]
          exact ih _ t p hnodup' hrest hfp
            (by rw [createIfNotExists_other _ _ hne]; exact hcat)
        · simp only [processPairs, hf, Bool.false_eq_true, if_false]
          exact ih _ t p hnodup' hrest hfp hcat

/-- Every pair whose parquet file is missing produces its warning. -/
theorem processPairs_warning (fs : List (String × String)) :
    ∀ (pairs cat : List (String × String)) (t p : String),
      (t, p) ∈ pairs → fsHas fs p = false →
      p ∈ (processPairs fs pairs cat).warnings := by
  intro pairs
  induction pairs with
  | nil => intro cat t p hmem; cases hmem
  | cons hd rest ih =>
      intro cat t p hmem hfp
      obtain ⟨t', p'⟩ := hd
      rcases List.mem_cons.mp hmem with heq | hrest
      · obtain ⟨ht, hp⟩ := Prod.mk.injEq .. ▸ heq
        subst ht; subst hp
        simp only [processPairs, hfp, Bool.false_eq_true, if_false]
        exact List.mem_cons_self _ _
      · by_cases hf : fsHas fs p' = true
        · simp only [processPairs, hf, if_true]
          exact ih _ t p hrest hfp
        · simp only [processPairs, hf, Bool.false_eq_true, if_false]
          exact List.mem_cons_of_mem _ (ih _ t p hrest hfp)

/-- Claim C6: `create_tables_if_not_exist` is idempotent. Any table
already in the catalog keeps its exact entry — name and contents — no
matter what the parquet files on disk now contain (create-if-absent, not
create-or-replace), and immediately rerunning the bootstrap on the
resulting catalog leaves that catalog unchanged. -/
theorem C6_idempotent_create (cfg : BootConfig)
    (fs cat : List (String × String)) (res : BootResult)
    (h : create_tables_if_not_exist cfg fs cat = .ok res) :
    (∀ t, catalogHas cat t = true →
      res.catalog.find? (fun e => e.1 = t) = cat.find? (fun e => e.1 = t)) ∧
    (create_tables_if_not_exist cfg fs res.catalog).map (fun r => r.catalog) =
      .ok res.catalog := by
  unfold create_tables_if_not_exist at h
  by_cases hcount :
      existCount cat (cfg.tables.map (fun p => p.2)) < cfg.tables.length
  · rw [if_pos hcount] at h
    cases hb : buildPairs cfg with
    | error e => rw [hb] at h; cases h
    | ok pairs =>
        rw [hb] at h
        simp only [Except.map, Except.ok.injEq] at h
        subst h
        constructor
        · intro t ht
          exact processPairs_find_preserved fs pairs cat t ht
        · have hfix : (processPairs fs pairs
              (processPairs fs pairs cat).catalog).catalog =
              (processPairs fs pairs cat).catalog :=
            processPairs_fixed fs pairs _ (fun tp htp hf =>
              processPairs_has_of_file fs pairs cat tp.1 tp.2 htp hf)
          unfold create_tables_if_not_exist
          by_cases hcount₂ : existCount (processPairs fs pairs cat).catalog
              (cfg.tables.map (fun p => p.2)) < cfg.tables.length
          · rw [if_pos hcount₂, hb]
            simp only [Except.map, Except.ok.injEq]
            exact hfix
          · rw [if_neg hcount₂]
            rfl
  · rw [if_neg hcount] at h
    simp only [Except.ok.injEq] at h
    subst h
    refine ⟨fun t _ => rfl, ?_⟩
    unfold create_tables_if_not_exist
    rw [if_neg hcount]
    rfl

/-- Catalog with only the orders table present. -/
def exCatHalf : List (String × String) := [("orders_t", "odata")]

/-- Filesystem holding only the customers parquet file. -/
def exFsHalf : List (String × String) := [("/base/c.parquet", "cdata")]

/-- The bootstrap result on `exCatHalf`/`exFsHalf`: the customers table is
created from the file, the missing orders file is warned about. -/
def exResHalf : BootResult :=
  ⟨[("orders_t", "odata"), ("customers_t", "cdata")],
    ["customers_t"], ["/base/o.parquet"]⟩

/-- Witness for C6: on the concrete half-filled catalog, the pre-existing
orders table keeps its entry, and rerunning the bootstrap leaves the
resulting catalog unchanged. -/
theorem C6_witness :
    exResHalf.catalog.find? (fun e => e.1 = "orders_t") =
      exCatHalf.find? (fun e => e.1 = "orders_t") ∧
    (create_tables_if_not_exist exCfg exFsHalf exResHalf.catalog).map
      (fun r => r.catalog) = .ok exResHalf.catalog :=
  ⟨(C6_idempotent_create exCfg exFsHalf exCatHalf exResHalf rfl).1
      "orders_t" (by decide),
    (C6_idempotent_create exCfg exFsHalf exCatHalf exResHalf rfl).2⟩

/-- Claim C7: when a `(table, path)` pair's parquet file is missing, the
bootstrap still returns normally (no exception), records the console
warning for that path, does not create that table, and still processes
the remaining pairs — any other pair whose file exists gets its table
created. Partial creation is the accepted end state. -/
theorem C7_missing_file_warn_continue (cfg : BootConfig)
    (fs cat pairs : List (String × String)) (t p t₂ p₂ : String)
    (hb : buildPairs cfg = .ok pairs)
    (hcount : existCount cat (cfg.tables.map (fun q => q.2)) < cfg.tables.length)
    (hmem : (t, p) ∈ pairs) (hfp : fsHas fs p = false)
    (hcat : catalogHas cat t = false)
    (hmem₂ : (t₂, p₂) ∈ pairs) (hfp₂ : fsHas fs p₂ = true) :
    create_tables_if_not_exist cfg fs cat = .ok (processPairs fs pairs cat) ∧
    p ∈ (processPairs fs pairs cat).warnings ∧
    catalogHas (processPairs fs pairs cat).catalog t = false ∧
    catalogHas (processPairs fs pairs cat).catalog t₂ = true := by
  refine ⟨?_, ?_, ?_, ?_⟩
  · unfold create_tables_if_not_exist
    rw [if_pos hcount, hb]
    rfl
  · exact processPairs_warning fs pairs cat t p hmem hfp
  · exact processPairs_not_created fs pairs cat t p
      (buildPairs_keys_nodup hb) hmem hfp hcat
  · exact processPairs_has_of_file fs pairs cat t₂ p₂ hmem₂ hfp₂

/-- The pairs `buildPairs` produces for `exCfg`. -/
def exPairs : List (String × String) :=
  [("orders_t", "/base/o.parquet"), ("customers_t", "/base/c.parquet")]

/-- Witness for C7: on an empty catalog with only the customers file on
disk, the bootstrap returns normally, warns about the orders file, skips
the orders table and still creates the customers table. -/
theorem C7_witness :
    create_tables_if_not_exist exCfg exFsHalf [] =
      .ok (processPairs exFsHalf exPairs []) ∧
    "/base/o.parquet" ∈ (processPairs exFsHalf exPairs []).warnings ∧
    catalogHas (processPairs exFsHalf exPairs []).catalog "orders_t" = false ∧
    catalogHas (processPairs exFsHalf exPairs []).catalog "customers_t" = true :=
  C7_missing_file_warn_continue exCfg exFsHalf [] exPairs
    "orders_t" "/base/o.parquet" "customers_t" "/base/c.parquet"
    rfl (by decide) (by decide) (by decide) (by decide)
    (by decide) (by decide)

/-! ### Claim C2: gender percentages -/

/-- Do all join rows contributing to product `pid` come from customers of
gender `Male` or `Female`? -/
def allMF (db : DB) (pid : Nat) : Bool :=
  (custGroup db pid).all fun r =>
    decide (r.2.2.gender = "Male" ∨ r.2.2.gender = "Female")

/-- One Male customer who bought the same product in two different
orders: two join rows, one distinct customer. -/
def exC2 : DB :=
  { orders := [⟨1, 1, "A", 10⟩, ⟨2, 1, "A", 10⟩],
    order_items := [⟨1, 1, 1⟩, ⟨2, 1, 1⟩],
    products := [⟨1, "Widget"⟩],
    product_reviews := [],
    customers := [⟨1, "Male"⟩] }

/-- Claim C2, evaluation at the failing input: in `exC2` every
contributing customer of product 1 is Male, yet the query returns
`male_percent = 200` and `female_percent = 0`, because the numerator
`SUM(CASE WHEN c.gender = 'Male' THEN 1 ELSE 0 END)` counts the two join
rows while the denominator `COUNT(DISTINCT o.customer_id)` counts the one
distinct customer. The claimed sum of `100.0` fails: `200 + 0 ≠ 100`. -/
theorem C2_gender_percent_eval :
    allMF exC2 1 = true ∧
    customer_count exC2 1 = 1 ∧
    genderRows exC2 1 "Male" = 2 ∧
    run_analytics_query exC2 3 =
      [⟨"A", "Widget", 20, 2, none, some 1, some 200, some 0⟩] ∧
    male_percent exC2 1 + female_percent exC2 1 ≠ 100 := by
  refine ⟨?_, ?_, ?_, ?_, ?_⟩ <;> with_unfolding_all decide

/-! ### Claims C3 and C4: helper lemmas about the query pipeline -/

/-- A `product_sales` row with no strictly better same-country competitor
has rank 1. -/
theorem rankOf_eq_one_of_maximal {db : DB} {s : SalesRow}
    (hmax : ∀ s' ∈ product_sales db, s'.country = s.country →
      s'.total_sales ≤ s.total_sales) :
    rankOf db s = 1 := by
  unfold rankOf
  have hnil : ((product_sales db).filter fun s2 =>
      decide (s2.country = s.country ∧ s.total_sales < s2.total_sales)) = [] := by
    rw [List.filter_eq_nil_iff]
    intro a ha
    simp only [decide_eq_true_eq, not_and, not_lt]
    intro hc
    exact hmax a ha hc
  rw [hnil]
  rfl

/-- A rank-1 `product_sales` row has no strictly better same-country
competitor. -/
theorem maximal_of_rankOf_eq_one {db : DB} {s : SalesRow}
    (h : rankOf db s = 1) :
    ∀ s' ∈ product_sales db, s'.country = s.country →
      s'.total_sales ≤ s.total_sales := by
  intro s' hs' hc
  by_contra hlt
  rw [not_le] at hlt
  have hmem : s' ∈ (product_sales db).filter fun s2 =>
      decide (s2.country = s.country ∧ s.total_sales < s2.total_sales) :=
    List.mem_filter.mpr ⟨hs', by simp [hc, hlt]⟩
  have hpos : 0 < ((product_sales db).filter fun s2 =>
      decide (s2.country = s.country ∧ s.total_sales < s2.total_sales)).length :=
    List.length_pos.mpr (List.ne_nil_of_mem hmem)
  unfold rankOf at h
  omega

/-- A maximal sales row of a top country appears in the query result. -/
theorem mem_result_of_maximal {db : DB} {N : Nat} {s : SalesRow}
    (hs : s ∈ product_sales db)
    (hmax : ∀ s' ∈ product_sales db, s'.country = s.country →
      s'.total_sales ≤ s.total_sales)
    (htc : s.country ∈ top_countries db N) :
    projectOf db s ∈ run_analytics_query db N := by
  unfold run_analytics_query
  rw [List.mem_map]
  refine ⟨rankedOf db s, ?_, rfl⟩
  rw [List.mem_insertionSort, List.mem_filter]
  refine ⟨List.mem_map_of_mem _ hs, ?_⟩
  simp only [rankedOf, decide_eq_true_eq]
  exact ⟨rankOf_eq_one_of_maximal hmax, htc⟩

/-- Every result row is the projection of a rank-1 `product_sales` row of
a top country. -/
theorem result_row_spec {db : DB} {N : Nat} {r : ResultRow}
    (hr : r ∈ run_analytics_query db N) :
    ∃ s ∈ product_sales db, projectOf db s = r ∧ rankOf db s = 1 ∧
      s.country ∈ top_countries db N := by
  unfold run_analytics_query at hr
  rw [List.mem_map] at hr
  obtain ⟨rr, hrr, hproj⟩ := hr
  rw [List.mem_insertionSort, List.mem_filter] at hrr
  obtain ⟨hmem, hcond⟩ := hrr
  rw [ranked_sales, List.mem_map] at hmem
  obtain ⟨s, hs, hrs⟩ := hmem
  subst hrs
  simp only [rankedOf, decide_eq_true_eq] at hcond
  exact ⟨s, hs, hproj, hcond.1, hcond.2⟩

/-- Claim C3: every row returned by the query is the projection of a
`product_sales` row of rank 1 within its country — no same-country product
has strictly greater total sales — and conversely every maximal sales row
of a top country passes the `rank = 1` filter, so products tied for the
top sales of a country all appear in the result. -/
theorem C3_rank_one_and_ties (db : DB) (N : Nat) :
    (∀ r ∈ run_analytics_query db N,
      ∃ s ∈ product_sales db, projectOf db s = r ∧ rankOf db s = 1 ∧
        ∀ s' ∈ product_sales db, s'.country = r.country →
          s'.total_sales ≤ r.total_sales) ∧
    (∀ s ∈ product_sales db,
      (∀ s' ∈ product_sales db, s'.country = s.country →
        s'.total_sales ≤ s.total_sales) →
      s.country ∈ top_countries db N →
      projectOf db s ∈ run_analytics_query db N) := by
  constructor
  · intro r hr
    obtain ⟨s, hs, hproj, hrank, _⟩ := result_row_spec hr
    refine ⟨s, hs, hproj, hrank, ?_⟩
    have hmax := maximal_of_rankOf_eq_one hrank
    rw [← hproj]
    exact hmax
  · intro s hs hmax htc
    exact mem_result_of_maximal hs hmax htc

/-- Two products tied at total sales 10 in country `A`. -/
def exC3 : DB :=
  { orders := [⟨1, 1, "A", 10⟩, ⟨2, 2, "A", 10⟩],
    order_items := [⟨1, 1, 1⟩, ⟨2, 2, 1⟩],
    products := [⟨1, "X"⟩, ⟨2, "Y"⟩],
    product_reviews := [],
    customers := [⟨1, "Male"⟩, ⟨2, "Female"⟩] }

/-- The sales row of product `X`, one of the two tied products. -/
def exC3Row : SalesRow := ⟨"A", 1, "X", 10, 1⟩

/-- Witness for C3: in the tie database, the tied product `X` is maximal
in its country and its projection appears in the query result. -/
theorem C3_witness : projectOf exC3 exC3Row ∈ run_analytics_query exC3 3 :=
  (C3_rank_one_and_ties exC3 3).2 exC3Row (by with_unfolding_all decide)
    (by with_unfolding_all decide) (by with_unfolding_all decide)

/-- Every nonempty list of sales rows has a row of maximal total sales. -/
theorem exists_max_salesrow :
    ∀ (l : List SalesRow), l ≠ [] →
      ∃ m ∈ l, ∀ x ∈ l, x.total_sales ≤ m.total_sales := by
  intro l
  induction l with
  | nil => intro h; exact absurd rfl h
  | cons a t ih =>
      intro _
      by_cases ht : t = []
      · subst ht
        refine ⟨a, List.mem_singleton_self a, ?_⟩
        intro x hx
        rw [List.mem_singleton] at hx
        subst hx
        exact le_refl _
      · obtain ⟨m, hm, hmax⟩ := ih ht
        by_cases hcmp : m.total_sales ≤ a.total_sales
        · refine ⟨a, List.mem_cons_self _ _, ?_⟩
          intro x hx
          rcases List.mem_cons.mp hx with he | hxt
          · subst he; exact le_refl _
          · exact le_trans (hmax x hxt) hcmp
        · rw [not_le] at hcmp
          refine ⟨m, List.mem_cons_of_mem _ hm, ?_⟩
          intro x hx
          rcases List.mem_cons.mp hx with he | hxt
          · subst he; exact le_of_lt hcmp
          · exact hmax x hxt

/-- The country list of `top_countries` is duplicate-free. -/
theorem top_countries_nodup (db : DB) (N : Nat) :
    (top_countries db N).Nodup :=
  (List.take_sublist N _).nodup
    ((List.perm_insertionSort (countryOrder db) (countriesOf db)).nodup_iff.mpr
      (List.nodup_dedup _))

/-- `top_countries` only lists countries that occur in `product_sales`. -/
theorem top_countries_subset (db : DB) (N : Nat) :
    top_countries db N ⊆ countriesOf db :=
  fun _ hc =>
    (List.perm_insertionSort (countryOrder db) (countriesOf db)).subset
      (List.take_subset _ _ hc)

/-- Membership in `countriesOf` in terms of `product_sales`. -/
theorem mem_countriesOf {db : DB} {c : String} :
    c ∈ countriesOf db ↔ ∃ s ∈ product_sales db, s.country = c := by
  simp [countriesOf, List.mem_dedup, List.mem_map, eq_comm]

/-- Every country selected by `top_countries` contributes at least one
row to the query result. -/
theorem country_has_result (db : DB) (N : Nat) :
    ∀ c ∈ top_countries db N, ∃ r ∈ run_analytics_query db N, r.country = c := by
  intro c hc
  obtain ⟨s₀, hs₀, hs₀c⟩ := mem_countriesOf.mp (top_countries_subset db N hc)
  have hmem₀ : s₀ ∈ (product_sales db).filter (fun s => decide (s.country = c)) :=
    List.mem_filter.mpr ⟨hs₀, by simp [hs₀c]⟩
  obtain ⟨m, hmem, hmax⟩ := exists_max_salesrow _ (List.ne_nil_of_mem hmem₀)
  have hmc : m.country = c := by
    have := (List.mem_filter.mp hmem).2
    simpa using this
  have hmps : m ∈ product_sales db := (List.mem_filter.mp hmem).1
  have hmax' : ∀ s' ∈ product_sales db, s'.country = m.country →
      s'.total_sales ≤ m.total_sales := by
    intro s' hs' hcc
    exact hmax s' (List.mem_filter.mpr ⟨hs', by simp [hcc, hmc]⟩)
  refine ⟨projectOf db m, mem_result_of_maximal hmps hmax' (by rw [hmc]; exact hc), hmc⟩

/-- `top_countries` returns exactly `min N (number of countries)` rows. -/
theorem top_countries_length (db : DB) (N : Nat) :
    (top_countries db N).length = min N (countriesOf db).length := by
  simp [top_countries, List.length_take,
    (List.perm_insertionSort (countryOrder db) (countriesOf db)).length_eq]

/-- No country left out of `top_countries` has a strictly better best
product than any selected country. -/
theorem top_countries_dominance (db : DB) (N : Nat) :
    ∀ c ∈ top_countries db N, ∀ c' ∈ countriesOf db,
      c' ∉ top_countries db N → maxSalesIn db c' ≤ maxSalesIn db c := by
  intro c hc c' hc' hnot
  have hsorted : List.Pairwise (countryOrder db)
      (List.insertionSort (countryOrder db) (countriesOf db)) :=
    List.sorted_insertionSort (countryOrder db) (countriesOf db)
  have hsplit := List.take_append_drop N
    (List.insertionSort (countryOrder db) (countriesOf db))
  have hc'sort : c' ∈ List.insertionSort (countryOrder db) (countriesOf db) :=
    (List.perm_insertionSort (countryOrder db) (countriesOf db)).mem_iff.mpr hc'
  have hd : c' ∈ List.drop N (List.insertionSort (countryOrder db) (countriesOf db)) := by
    rcases List.mem_append.mp (by rw [hsplit]; exact hc'sort) with h1 | h2
    · exact absurd h1 hnot
    · exact h2
  have hpair := (List.pairwise_append.mp (by rw [hsplit]; exact hsorted)).2.2
  exact hpair c hc c' hd

/-- Claim C4: the query result covers at most `N` distinct countries —
exactly the countries selected by `top_countries`, each of which does
contribute a row — `top_countries` keeps `min N (number of countries)`
entries, and every selected country's best product sales dominate every
unselected country's. -/
theorem C4_top_countries_limit (db : DB) (N : Nat) :
    ((run_analytics_query db N).map (fun r => r.country)).dedup.length ≤ N ∧
    (∀ r ∈ run_analytics_query db N, r.country ∈ top_countries db N) ∧
    (∀ c ∈ top_countries db N, ∃ r ∈ run_analytics_query db N, r.country = c) ∧
    (top_countries db N).length = min N (countriesOf db).length ∧
    (∀ c ∈ top_countries db N, ∀ c' ∈ countriesOf db,
      c' ∉ top_countries db N → maxSalesIn db c' ≤ maxSalesIn db c) := by
  have hmemtc : ∀ r ∈ run_analytics_query db N, r.country ∈ top_countries db N := by
    intro r hr
    obtain ⟨s, _, hproj, _, htc⟩ := result_row_spec hr
    rw [← hproj]
    exact htc
  refine ⟨?_, hmemtc, country_has_result db N, top_countries_length db N,
    top_countries_dominance db N⟩
  have hsub : ((run_analytics_query db N).map (fun r => r.country)).dedup ⊆
      top_countries db N := by
    intro c hcm
    rw [List.mem_dedup, List.mem_map] at hcm
    obtain ⟨r, hr, hrc⟩ := hcm
    exact hrc ▸ hmemtc r hr
  calc ((run_analytics_query db N).map (fun r => r.country)).dedup.length
      ≤ (top_countries db N).length :=
        (List.subperm_of_subset (List.nodup_dedup _) hsub).length_le
    _ ≤ N := by
        rw [top_countries_length]
        exact min_le_left _ _

/-- Two countries: `A` with best sales 20, `B` with best sales 10. -/
def exC4 : DB :=
  { orders := [⟨1, 1, "A", 20⟩, ⟨2, 1, "B", 10⟩],
    order_items := [⟨1, 1, 1⟩, ⟨2, 2, 1⟩],
    products := [⟨1, "X"⟩, ⟨2, "Y"⟩],
    product_reviews := [],
    customers := [⟨1, "Male"⟩] }

/-- Witness for C4: with a limit of 1, country `A` is selected, `B` is
not, and `B`'s best sales are dominated by `A`'s. -/
theorem C4_witness : maxSalesIn exC4 "B" ≤ maxSalesIn exC4 "A" :=
  (C4_top_countries_limit exC4 1).2.2.2.2 "A" (by with_unfolding_all decide)
    "B" (by with_unfolding_all decide) (by with_unfolding_all decide)
